import Mathlib

/-!
Verification of the question.sh per-connection session engine.

The definitions below are a shallow embedding of the TypeScript sources:
  * src/clientSession.ts  — the ClientSession class (streamResponse,
    calculateRequestCost, handleCommand's /retry branch, the interactive
    registration resolution, and the raw input handler);
  * src/adventureMode.ts  — the adventure-mode engine (handleAdventureMessage,
    handleGameEndChoice, and the delta-buffering loop of the stream renderer).

JavaScript numbers are modelled as rationals, JavaScript strings as Lean
strings (or as lists of characters where the code indexes into them), and
the two external collaborators — the generation service and the database —
as explicit parameters: a generation call's result is a value of an outcome
type (the text deltas, the usage record, the tool calls, or a thrown error),
and the accounts table is a list of rows threaded through the functions that
touch it.  Terminal writes that carry user-facing messages are collected in
an output list; pure cursor-movement escape writes are not tracked.
-/

namespace QSh

/-! ## Character and string helpers

The source manipulates JavaScript strings with trim, toLowerCase, split,
slice and parseFloat.  These are embedded as executable functions on lists
of characters so that every theorem below can be evaluated by the kernel.
-/

/-- JavaScript whitespace test used by String.prototype.trim (the source
only ever trims spaces, tabs and CR/LF). -/
def isWS (c : Char) : Bool := c == ' ' || c == '\t' || c == '\n' || c == '\r'

/-- String.prototype.trim on a list of characters. -/
def trimList (cs : List Char) : List Char :=
  ((cs.dropWhile isWS).reverse.dropWhile isWS).reverse

/-- String.prototype.trim on a Lean string. -/
def jsTrim (s : String) : String := String.mk (trimList s.data)

/-- ASCII uppercase test (code points 65–90), the character class the
lowercasing at src/clientSession.ts line 97 acts on. -/
def isUpperCp (c : Char) : Bool := 65 ≤ c.toNat && c.toNat ≤ 90

/-- String.prototype.toLowerCase, restricted to ASCII: an uppercase letter
is shifted down by 32 code points, every other character is unchanged. -/
def lowerChar (c : Char) : Char :=
  if h : 65 ≤ c.toNat ∧ c.toNat ≤ 90 then
    { val := ⟨⟨c.toNat + 32, by omega⟩⟩,
      valid := Or.inl (show c.toNat + 32 < 55296 by omega) }
  else c

/-- String.prototype.split with a single-character separator (the source
splits command lines on a single space and buffered output on a single
newline).  Mirrors JavaScript semantics: splitting the empty string yields
one empty field, and a trailing separator yields a trailing empty field. -/
def splitChar (sep : Char) : List Char → List (List Char)
  | [] => [[]]
  | c :: rest =>
    let r := splitChar sep rest
    if c == sep then [] :: r
    else
      match r with
      | l :: ls => (c :: l) :: ls
      | [] => [[c]]

/-- Array.prototype.join with a single-space separator, as used by
the /system and /model handlers (args.join(" ")). -/
def joinSpace : List (List Char) → List Char
  | [] => []
  | [t] => t
  | t :: ts => t ++ ' ' :: joinSpace ts

/-- Decimal value of a digit run. -/
def digitsVal (cs : List Char) : Nat :=
  cs.foldl (fun acc c => acc * 10 + (c.toNat - 48)) 0

/-- The JavaScript parseFloat builtin on a decimal literal: leading
whitespace is skipped, then an optional sign, integer digits, an optional
fraction, and an optional exponent part (sign and digits after e or E,
consumed only when at least one exponent digit follows) are read, stopping
at the first character that fits none of these; none models NaN (no digit
in the mantissa).  The case-sensitive Infinity literal is the one omission:
it cannot reach the /retry handler, whose tokens are lowercased. -/
def parseFloat (cs : List Char) : Option ℚ :=
  let csw := cs.dropWhile isWS
  let (sign, cs1) : ℚ × List Char :=
    match csw with
    | '-' :: rest => (-1, rest)
    | '+' :: rest => (1, rest)
    | _ => (1, csw)
  let intPart := cs1.takeWhile Char.isDigit
  let rest := cs1.dropWhile Char.isDigit
  let (fracPart, rest2) : List Char × List Char :=
    match rest with
    | '.' :: r => (r.takeWhile Char.isDigit, r.dropWhile Char.isDigit)
    | _ => ([], rest)
  let exponent : ℤ :=
    match rest2 with
    | e :: r2 =>
      if e == 'e' || e == 'E' then
        let (esign, r3) : ℤ × List Char :=
          match r2 with
          | '-' :: r => (-1, r)
          | '+' :: r => (1, r)
          | _ => (1, r2)
        let eDigits := r3.takeWhile Char.isDigit
        if eDigits.isEmpty then 0 else esign * (digitsVal eDigits : ℤ)
      else 0
    | [] => 0
  if intPart.isEmpty ∧ fracPart.isEmpty then none
  else
    some (sign *
      (((digitsVal intPart : ℚ) + (digitsVal fracPart : ℚ) / (10 ^ fracPart.length))
        * (10 : ℚ) ^ exponent))

/-! ## Data model -/

/-- Message roles (src/types.ts). -/
inductive Role where
  | user
  | assistant
deriving DecidableEq, Repr

/-- A conversation turn (src/types.ts). -/
structure Message where
  role : Role
  content : String
deriving DecidableEq, Repr

/-- Usage record delivered with the final stream chunk
(src/clientSession.ts lines 400–404). -/
structure Usage where
  prompt_tokens : Nat
  completion_tokens : Nat
  total_tokens : Nat
deriving DecidableEq, Repr

/-- Per-token unit prices of a catalog entry.  The provider delivers them
as decimal strings which calculateRequestCost reads off with parseFloat;
they are embedded directly as the parsed rational values. -/
structure Pricing where
  prompt : ℚ
  completion : ℚ
deriving DecidableEq, Repr

/-- One entry of the cached model list (cachedModelList in
src/clientSession.ts); pricing may be absent. -/
structure ModelEntry where
  id : String
  created : Nat
  pricing : Option Pricing
deriving DecidableEq, Repr

/-- One row of the accounts table (init.sql / the INSERT at
src/clientSession.ts lines 649–653). -/
structure Account where
  id : String
  username : String
  email : String
  credits : ℚ
  password_hash : String
deriving DecidableEq, Repr

/-- The session state touched by the claims under verification
(fields of the ClientSession class, src/clientSession.ts lines 33–55). -/
structure Session where
  conversation : List Message
  model : String
  systemPrompt : String
  temperature : ℚ
  userId : Option String
  username : Option String
  credits : ℚ
  isInAdventure : Bool
  gameEndChoice : Bool
  adventureConversation : List Message
deriving DecidableEq, Repr

/-- The ClientSession field initializers (src/clientSession.ts
lines 38–55): guest identity with $0.1 credits. -/
def sessionDefault : Session where
  conversation := []
  model := "google/gemini-2.0-flash-thinking-exp:free"
  systemPrompt := "You are a helpful AI assistant accessed through a SSH service called question.sh. Keep responses concise and use simple formatting."
  temperature := 1
  userId := none
  username := none
  credits := 1/10
  isInAdventure := false
  gameEndChoice := false
  adventureConversation := []

/-! ## Billing (src/clientSession.ts lines 31 and 477–507) -/

/-- The markup constant PROFIT_RATE = 1.5 (src/clientSession.ts line 31). -/
def PROFIT_RATE : ℚ := 3 / 2

/-- The pricing lookup cachedModelList.find((m) => m.id === this.model)?.pricing
(src/clientSession.ts lines 485–487). -/
def modelPricing (catalog : List ModelEntry) (model : String) : Option Pricing :=
  (catalog.find? (fun m => m.id == model)).bind ModelEntry.pricing

/-- calculateRequestCost (src/clientSession.ts lines 477–507): zero when the
model has no cached pricing, otherwise
(promptPrice * promptTokens + completionPrice * completionTokens) * PROFIT_RATE. -/
def calculateRequestCost (catalog : List ModelEntry) (model : String) (usage : Usage) : ℚ :=
  match modelPricing catalog model with
  | none => 0
  | some p =>
    let promptCost := p.prompt * usage.prompt_tokens
    let completionCost := p.completion * usage.completion_tokens
    (promptCost + completionCost) * PROFIT_RATE

/-! ## The streaming chat path (src/clientSession.ts lines 370–475) -/

/-- Result of one generation call as observed by streamResponse: either the
collaborator threw (carrying the detail text appended to the error line), or
the stream completed with the accumulated text and an optional usage record. -/
inductive GenOutcome where
  | error (detail : String)
  | ok (fullResponse : String) (usage : Option Usage)
deriving DecidableEq, Repr

/-- The out-of-credits message (src/clientSession.ts lines 372–374). -/
def outOfCreditsMsg : String :=
  "You have run out of credits. Please add more credits to continue."

/-- The missing-usage warning (src/clientSession.ts lines 460–462). -/
def missingUsageMsg : String :=
  "Unable to calculate request cost due to missing usage data."

/-- The colorized error line built in the catch block
(src/clientSession.ts lines 464–473). -/
def genErrorMsg (detail : String) : String :=
  "\x1b[31m" ++ ("Error, use /model to try another model." ++ detail) ++ "\x1b[0m"

/-- What one call to streamResponse produced: the updated session, the
user-facing messages written through writeCommandOutput, and whether the
generation collaborator was invoked at all. -/
structure StreamResult where
  session : Session
  output : List String
  generationCalled : Bool
deriving DecidableEq, Repr

/-- streamResponse (src/clientSession.ts lines 370–475).  With no credits it
writes the out-of-credits message and returns before touching the
collaborator.  Otherwise the stream runs; only after it completes are the
user turn and the trimmed assistant turn appended (lines 433–438), and the
cost is debited only when a usage record arrived (lines 440–457).  A thrown
error is caught and rendered as a colorized line (lines 464–474) — at that
point the conversation has not yet been pushed to. -/
def streamResponse (s : Session) (catalog : List ModelEntry) (userMessage : String)
    (gen : GenOutcome) : StreamResult :=
  if s.credits ≤ 0 then
    { session := s, output := [outOfCreditsMsg], generationCalled := false }
  else
    match gen with
    | .error detail =>
      { session := s, output := [genErrorMsg detail], generationCalled := true }
    | .ok fullResponse usage =>
      let s1 := { s with conversation :=
        s.conversation ++ [⟨.user, userMessage⟩, ⟨.assistant, jsTrim fullResponse⟩] }
      match usage with
      | some u =>
        let cost := calculateRequestCost catalog s.model u
        { session := { s1 with credits := s1.credits - cost }, output := [],
          generationCalled := true }
      | none =>
        { session := s1, output := [missingUsageMsg], generationCalled := true }

/-! ## Claims C1, C2, C3 -/

/-- Claim C1: for every session whose credits are not strictly positive,
streamResponse writes the out-of-credits message, does not invoke the
generation collaborator, charges nothing, and leaves the conversation
(indeed the whole session) unchanged. -/
theorem c1_no_credits_aborts (s : Session) (catalog : List ModelEntry)
    (msg : String) (gen : GenOutcome) (h : s.credits ≤ 0) :
    (streamResponse s catalog msg gen).session = s ∧
    (streamResponse s catalog msg gen).output = [outOfCreditsMsg] ∧
    (streamResponse s catalog msg gen).generationCalled = false ∧
    (streamResponse s catalog msg gen).session.conversation = s.conversation := by
  unfold streamResponse
  rw [if_pos h]
  exact ⟨rfl, rfl, rfl, rfl⟩

/-- Witness for C1 at a concrete session with zero credits. -/
theorem c1_no_credits_aborts_witness :
    ({ sessionDefault with credits := 0 } : Session).credits ≤ 0 ∧
    (streamResponse { sessionDefault with credits := 0 } [] "hi"
        (GenOutcome.ok "resp" none)).session
      = { sessionDefault with credits := 0 } ∧
    (streamResponse { sessionDefault with credits := 0 } [] "hi"
        (GenOutcome.ok "resp" none)).generationCalled = false :=
  ⟨le_refl _,
   (c1_no_credits_aborts _ [] "hi" (GenOutcome.ok "resp" none) (le_refl _)).1,
   (c1_no_credits_aborts _ [] "hi" (GenOutcome.ok "resp" none) (le_refl _)).2.2.1⟩

/-- Claim C2: with cached per-token prices the charge is
(promptTokens * promptPrice + completionTokens * completionPrice) * 1.5;
with the model absent from the catalog it is 0; and the spec's worked
example of usage 1000/500 against prices 0.000001/0.000002 costs 0.003. -/
theorem c2_request_cost :
    (∀ (catalog : List ModelEntry) (model : String) (u : Usage) (p : Pricing),
        modelPricing catalog model = some p →
        calculateRequestCost catalog model u
          = (u.prompt_tokens * p.prompt + u.completion_tokens * p.completion) * PROFIT_RATE) ∧
    (∀ (catalog : List ModelEntry) (model : String) (u : Usage),
        catalog.find? (fun m => m.id == model) = none →
        calculateRequestCost catalog model u = 0) ∧
    PROFIT_RATE = 3 / 2 ∧
    calculateRequestCost
        [{ id := "m", created := 0,
           pricing := some { prompt := 1/1000000, completion := 2/1000000 } }] "m"
        { prompt_tokens := 1000, completion_tokens := 500, total_tokens := 1500 }
      = 3 / 1000 := by
  refine ⟨?_, ?_, rfl, ?_⟩
  · intro catalog model u p h
    simp only [calculateRequestCost, h]
    ring
  · intro catalog model u h
    simp only [calculateRequestCost, modelPricing, h, Option.bind]
  · simp only [calculateRequestCost, modelPricing, List.find?, PROFIT_RATE]
    norm_num

/-- Witness for C2: the pricing lookup hypothesis discharged at the concrete
one-entry catalog of the spec's worked example. -/
theorem c2_request_cost_witness :
    modelPricing
        [{ id := "m", created := 0,
           pricing := some { prompt := 1/1000000, completion := 2/1000000 } }] "m"
      = some { prompt := 1/1000000, completion := 2/1000000 } ∧
    calculateRequestCost
        [{ id := "m", created := 0,
           pricing := some { prompt := 1/1000000, completion := 2/1000000 } }] "m"
        { prompt_tokens := 1000, completion_tokens := 500, total_tokens := 1500 }
      = (({ prompt_tokens := 1000, completion_tokens := 500, total_tokens := 1500 } : Usage).prompt_tokens
            * ({ prompt := 1/1000000, completion := 2/1000000 } : Pricing).prompt
          + ({ prompt_tokens := 1000, completion_tokens := 500, total_tokens := 1500 } : Usage).completion_tokens
            * ({ prompt := 1/1000000, completion := 2/1000000 } : Pricing).completion) * PROFIT_RATE :=
  ⟨rfl, c2_request_cost.1 _ "m" _ _ rfl⟩

/-- A concrete logged-in session with one credit, used as the explicit input
of the C3 counterexample. -/
def c3Session : Session := { sessionDefault with credits := 1 }

/-- Claim C3 counterexample: the claim asserts the user turn is appended
before the generation call is attempted, so that it is still recorded when
the collaborator throws.  At this concrete input the collaborator throws and
the conversation afterwards does not contain the user turn (it is empty):
the push happens only after a successful stream (src/clientSession.ts
line 434 runs after the await of line 382 and the loop of line 409). -/
theorem c3_counterexample :
    (0 : ℚ) < c3Session.credits ∧
    ¬ (Message.mk Role.user "hello"
        ∈ (streamResponse c3Session [] "hello" (GenOutcome.error "")).session.conversation) := by
  constructor
  · norm_num [c3Session, sessionDefault]
  · have h : ¬ (1 : ℚ) ≤ 0 := by norm_num
    simp [streamResponse, c3Session, sessionDefault, h]

/-- Claim C3 as amended: with credits > 0, a collaborator exception is
rendered as the colorized error line and leaves the conversation exactly
unchanged, while a completed stream appends the user turn followed by the
trimmed assistant turn; in both cases the conversation is never corrupted. -/
theorem c3_amended (s : Session) (catalog : List ModelEntry) (msg : String)
    (h : 0 < s.credits) :
    (∀ detail,
        (streamResponse s catalog msg (GenOutcome.error detail)).session.conversation
          = s.conversation ∧
        (streamResponse s catalog msg (GenOutcome.error detail)).output
          = [genErrorMsg detail]) ∧
    (∀ fullResponse usage,
        (streamResponse s catalog msg (GenOutcome.ok fullResponse usage)).session.conversation
          = s.conversation ++ [⟨.user, msg⟩, ⟨.assistant, jsTrim fullResponse⟩]) := by
  have h' : ¬ s.credits ≤ 0 := not_le.mpr h
  constructor
  · intro detail
    unfold streamResponse
    rw [if_neg h']
    exact ⟨rfl, rfl⟩
  · intro fullResponse usage
    unfold streamResponse
    rw [if_neg h']
    cases usage <;> rfl

/-- Witness for the amended C3 at a concrete session and error outcome. -/
theorem c3_amended_witness :
    (0 : ℚ) < c3Session.credits ∧
    (streamResponse c3Session [] "hello" (GenOutcome.error "")).session.conversation
      = c3Session.conversation :=
  ⟨one_pos,
   ((c3_amended c3Session [] "hello" one_pos).1 "").1⟩

/-! ## Adventure mode (src/adventureMode.ts) -/

/-- Result of one adventure-mode generation call as observed by
handleAdventureMessage: either the collaborator threw, or the stream
completed with the accumulated text and the tool calls of the final
completion (the function names of chatCompletion tool_calls,
src/adventureMode.ts lines 163–179). -/
inductive AdvGen where
  | error
  | ok (fullResponse : String) (toolCalls : List String)
deriving DecidableEq, Repr

/-- handleAdventureMessage (src/adventureMode.ts lines 58–238), restricted
to its session-state effect.  The user turn is pushed first (line 63,
inside the try, before the stream is opened); on an error the catch block
only writes a message, so the user turn stays.  On completion the trimmed
assistant turn is pushed (line 189), and if a win_game or lose_game tool
call arrived the end-choice flag is set, adventure mode is left, and the
transcript is discarded (lines 222–224).  The save_game tool call and all
terminal writes only affect the database and the terminal, not the session
state modelled here. -/
def handleAdventureMessage (s : Session) (message : String) (gen : AdvGen) : Session :=
  let s0 := { s with adventureConversation :=
    s.adventureConversation ++ [⟨.user, message⟩] }
  match gen with
  | .error => s0
  | .ok fullResponse toolCalls =>
    let gameWon := toolCalls.contains "win_game"
    let gameLost := toolCalls.contains "lose_game"
    let s1 := { s0 with adventureConversation :=
      s0.adventureConversation ++ [⟨.assistant, jsTrim fullResponse⟩] }
    if gameWon || gameLost then
      { s1 with gameEndChoice := true, isInAdventure := false,
                adventureConversation := [] }
    else s1

/-- The message written when choice 2 returns to the main menu
(src/adventureMode.ts lines 280–282). -/
def welcomeBackMsg : String := "Welcome back! Type /help to see available commands."

/-- The re-prompt written for an unrecognized end choice
(src/adventureMode.ts lines 285–288). -/
def endChoiceMenu : List String :=
  ["Please choose 1 or 2:", "1. Start a new adventure", "2. Return to main menu"]

/-- handleGameEndChoice (src/adventureMode.ts lines 265–297): dispatch on
the trimmed input; "1" restarts the adventure (flags reset, transcript
cleared, a fresh "start" turn processed), "2" clears the end-choice flag,
anything else re-prompts with the same two options and changes nothing. -/
def handleGameEndChoice (s : Session) (input : String) (gen : AdvGen) :
    Session × List String :=
  if jsTrim input = "1" then
    (handleAdventureMessage
      { s with isInAdventure := true, gameEndChoice := false,
               adventureConversation := [] } "start" gen, [])
  else if jsTrim input = "2" then
    ({ s with gameEndChoice := false }, [welcomeBackMsg])
  else
    (s, endChoiceMenu)

/-- Claim C4: in the post-game end-choice state, "1" restarts the adventure
with the transcript re-seeded by a fresh "start" turn (isInAdventure true,
gameEndChoice false) — shown both for a collaborator error and for any
completed turn that does not immediately end the game again; "2" only
clears gameEndChoice; any other input re-prompts with the two options and
leaves the session untouched. -/
theorem c4_game_end_choice (s : Session) (gen : AdvGen) (input : String) :
    (∀ resp tools, tools.contains "win_game" = false →
        tools.contains "lose_game" = false →
        (handleGameEndChoice s "1" (AdvGen.ok resp tools)).1.isInAdventure = true ∧
        (handleGameEndChoice s "1" (AdvGen.ok resp tools)).1.gameEndChoice = false ∧
        (handleGameEndChoice s "1" (AdvGen.ok resp tools)).1.adventureConversation
          = [⟨.user, "start"⟩, ⟨.assistant, jsTrim resp⟩]) ∧
    ((handleGameEndChoice s "1" AdvGen.error).1.isInAdventure = true ∧
     (handleGameEndChoice s "1" AdvGen.error).1.gameEndChoice = false ∧
     (handleGameEndChoice s "1" AdvGen.error).1.adventureConversation
       = [⟨.user, "start"⟩]) ∧
    ((handleGameEndChoice s "2" gen).1 = { s with gameEndChoice := false } ∧
     (handleGameEndChoice s "2" gen).2 = [welcomeBackMsg]) ∧
    (jsTrim input ≠ "1" → jsTrim input ≠ "2" →
        handleGameEndChoice s input gen = (s, endChoiceMenu)) := by
  have h1 : jsTrim "1" = "1" := rfl
  have h2 : jsTrim "2" = "2" := rfl
  refine ⟨?_, ?_, ?_, ?_⟩
  · intro resp tools hwin hlose
    have hwin' : "win_game" ∉ tools := by simpa using hwin
    have hlose' : "lose_game" ∉ tools := by simpa using hlose
    unfold handleGameEndChoice
    rw [if_pos h1]
    unfold handleAdventureMessage
    simp [hwin', hlose']
  · unfold handleGameEndChoice
    rw [if_pos h1]
    unfold handleAdventureMessage
    simp
  · unfold handleGameEndChoice
    rw [if_neg (by rw [h2]; decide), if_pos h2]
    exact ⟨rfl, rfl⟩
  · intro hn1 hn2
    unfold handleGameEndChoice
    rw [if_neg hn1, if_neg hn2]

/-- Witness for C4 at concrete inputs: a restart whose fresh turn completes
without tool calls, and an unrecognized choice "3". -/
theorem c4_game_end_choice_witness :
    (([] : List String).contains "win_game" = false ∧
     (handleGameEndChoice sessionDefault "1" (AdvGen.ok "tale" [])).1.adventureConversation
       = [⟨.user, "start"⟩, ⟨.assistant, jsTrim "tale"⟩]) ∧
    handleGameEndChoice sessionDefault "3" AdvGen.error
      = (sessionDefault, endChoiceMenu) :=
  ⟨⟨rfl, ((c4_game_end_choice sessionDefault (AdvGen.ok "tale" []) "3").1 "tale" []
      rfl rfl).2.2⟩,
   (c4_game_end_choice sessionDefault AdvGen.error "3").2.2.2
     (by decide) (by decide)⟩

/-! ## The raw input handler (src/clientSession.ts lines 761–821) -/

/-- The line-editor state: the pending input buffer and the cursor position
(fields inputBuffer and cursorPos of ClientSession). -/
structure EditorState where
  inputBuffer : List Char
  cursorPos : Nat
deriving DecidableEq, Repr

/-- The handler installed by setInputHandler (src/clientSession.ts
lines 761–821), as a transition on the editor state: Ctrl-C terminates
(editor fields untouched), the right/left arrow sequences move the cursor
inside bounds, other escape sequences are ignored, CR submits and resets,
DEL removes the character left of the cursor when there is one, and any
other chunk is inserted at the cursor. -/
def inputHandler (st : EditorState) (input : List Char) : EditorState :=
  if input = ['\x03'] then st
  else if input = ['\x1b', '[', 'C'] then
    if st.cursorPos < st.inputBuffer.length then
      { st with cursorPos := st.cursorPos + 1 }
    else st
  else if input = ['\x1b', '[', 'D'] then
    if 0 < st.cursorPos then { st with cursorPos := st.cursorPos - 1 } else st
  else if input.head? = some '\x1b' then st
  else if input = ['\r'] then { inputBuffer := [], cursorPos := 0 }
  else if input = ['\x7f'] then
    if 0 < st.cursorPos then
      { inputBuffer := st.inputBuffer.take (st.cursorPos - 1)
          ++ st.inputBuffer.drop st.cursorPos,
        cursorPos := st.cursorPos - 1 }
    else st
  else
    { inputBuffer := st.inputBuffer.take st.cursorPos ++ input
        ++ st.inputBuffer.drop st.cursorPos,
      cursorPos := st.cursorPos + input.length }

/-- Claim C5: every raw chunk processed by the input handler preserves the
invariant 0 ≤ cursorPos ≤ length of the input buffer. -/
theorem c5_cursor_invariant (st : EditorState) (input : List Char)
    (h : st.cursorPos ≤ st.inputBuffer.length) :
    0 ≤ (inputHandler st input).cursorPos ∧
    (inputHandler st input).cursorPos ≤ (inputHandler st input).inputBuffer.length := by
  refine ⟨Nat.zero_le _, ?_⟩
  unfold inputHandler
  split_ifs <;>
    first
    | omega
    | (simp only [List.length_append, List.length_take, List.length_drop]; omega)

/-- Witness for C5: inserting a character in the middle of a one-character
buffer. -/
theorem c5_cursor_invariant_witness :
    0 ≤ (inputHandler ⟨['a'], 1⟩ ['b']).cursorPos ∧
    (inputHandler ⟨['a'], 1⟩ ['b']).cursorPos
      ≤ (inputHandler ⟨['a'], 1⟩ ['b']).inputBuffer.length :=
  c5_cursor_invariant ⟨['a'], 1⟩ ['b'] (by decide)

/-! ## Command parsing and the /retry branch
(src/clientSession.ts lines 96–168) -/

/-- The tokenization at the top of handleCommand (src/clientSession.ts
line 97): cmd.trim().toLowerCase().split(" ").  The head is the command
name, the tail the argument tokens. -/
def parseCommand (cmd : String) : List (List Char) :=
  splitChar ' ' ((trimList cmd.data).map lowerChar)

/-- The message of the /retry guard (src/clientSession.ts line 146). -/
def noRetryMsg : String := "No previous message to retry."

/-- The /retry progress line (src/clientSession.ts lines 162–164). -/
def retryTempMsg (t : ℚ) : String :=
  "Retrying last message with temperature: " ++ toString t

/-- The /retry branch of handleCommand (src/clientSession.ts
lines 144–168).  With fewer than two conversation turns it only writes
noRetryMsg.  Otherwise a first argument token, when truthy (non-empty) and
parsing to a float within [0, 2], replaces the temperature; the last turn
is popped; and the streaming path is re-invoked on the content of the then
last turn. -/
def handleRetry (s : Session) (args : List (List Char)) (catalog : List ModelEntry)
    (gen : GenOutcome) : StreamResult :=
  if s.conversation.length < 2 then
    { session := s, output := [noRetryMsg], generationCalled := false }
  else
    let s1 :=
      match args with
      | [] => s
      | a :: _ =>
        if a.isEmpty then s
        else
          match parseFloat a with
          | some temp =>
            if 0 ≤ temp ∧ temp ≤ 2 then { s with temperature := temp } else s
          | none => s
    let s2 := { s1 with conversation := s1.conversation.dropLast }
    let lastUserContent := ((s2.conversation.getLast?).map Message.content).getD ""
    let r := streamResponse s2 catalog lastUserContent gen
    { session := r.session, output := retryTempMsg s1.temperature :: r.output,
      generationCalled := r.generationCalled }

/-- streamResponse never changes the session temperature: the only fields
it writes are the conversation and the credits. -/
theorem streamResponse_temperature (s : Session) (catalog : List ModelEntry)
    (msg : String) (gen : GenOutcome) :
    (streamResponse s catalog msg gen).session.temperature = s.temperature := by
  cases gen with
  | error d => unfold streamResponse; split <;> rfl
  | ok f u =>
    cases u with
    | none => unfold streamResponse; split <;> rfl
    | some x => unfold streamResponse; split <;> rfl

/-- Claim C6: /retry on a conversation with fewer than two turns writes
exactly the literal message, performs no generation call, and leaves the
conversation and the temperature unchanged. -/
theorem c6_retry_guard (s : Session) (args : List (List Char))
    (catalog : List ModelEntry) (gen : GenOutcome)
    (h : s.conversation.length < 2) :
    (handleRetry s args catalog gen).output = [noRetryMsg] ∧
    (handleRetry s args catalog gen).generationCalled = false ∧
    (handleRetry s args catalog gen).session.conversation = s.conversation ∧
    (handleRetry s args catalog gen).session.temperature = s.temperature := by
  unfold handleRetry
  rw [if_pos h]
  exact ⟨rfl, rfl, rfl, rfl⟩

/-- Witness for C6 at the default (empty) conversation. -/
theorem c6_retry_guard_witness :
    (handleRetry sessionDefault [] [] (GenOutcome.error "")).output = [noRetryMsg] ∧
    (handleRetry sessionDefault [] [] (GenOutcome.error "")).generationCalled = false :=
  ⟨(c6_retry_guard sessionDefault [] [] (GenOutcome.error "") (by decide)).1,
   (c6_retry_guard sessionDefault [] [] (GenOutcome.error "") (by decide)).2.1⟩

/-- Claim C7: with at least two turns, a first /retry argument parsing to a
float in [0, 2] becomes the session temperature before the streaming path
runs, while a non-numeric or out-of-range argument is silently ignored; in
particular the argument "0.8" sets the temperature to 4/5 and the argument
"5" leaves it unchanged, and likewise for exponent-notation arguments:
"3e-1" sets 3/10 while "1e1" (ten) is out of range and ignored. -/
theorem c7_retry_temperature (s : Session) (catalog : List ModelEntry)
    (gen : GenOutcome) (h : 2 ≤ s.conversation.length) :
    (∀ a rest t, a ≠ [] → parseFloat a = some t → 0 ≤ t → t ≤ 2 →
        (handleRetry s (a :: rest) catalog gen).session.temperature = t) ∧
    (∀ a rest, a ≠ [] → parseFloat a = none →
        (handleRetry s (a :: rest) catalog gen).session.temperature = s.temperature) ∧
    (∀ a rest t, a ≠ [] → parseFloat a = some t → ¬ (0 ≤ t ∧ t ≤ 2) →
        (handleRetry s (a :: rest) catalog gen).session.temperature = s.temperature) ∧
    parseFloat "0.8".data = some (4 / 5) ∧
    (handleRetry s ["0.8".data] catalog gen).session.temperature = 4 / 5 ∧
    parseFloat "5".data = some 5 ∧
    (handleRetry s ["5".data] catalog gen).session.temperature = s.temperature ∧
    parseFloat "3e-1".data = some (3 / 10) ∧
    (handleRetry s ["3e-1".data] catalog gen).session.temperature = 3 / 10 ∧
    parseFloat "1e1".data = some 10 ∧
    (handleRetry s ["1e1".data] catalog gen).session.temperature = s.temperature := by
  have hge : ¬ s.conversation.length < 2 := not_lt.mpr h
  have key : ∀ (a : List Char) (rest : List (List Char)), a ≠ [] →
      (handleRetry s (a :: rest) catalog gen).session.temperature
        = (match parseFloat a with
           | some temp => if 0 ≤ temp ∧ temp ≤ 2 then temp else s.temperature
           | none => s.temperature) := by
    intro a rest ha
    have ha' : a.isEmpty = false := by
      cases a with
      | nil => exact absurd rfl ha
      | cons c cs => rfl
    unfold handleRetry
    rw [if_neg hge]
    simp only [ha']
    rw [streamResponse_temperature]
    cases hp : parseFloat a with
    | none => simp
    | some temp =>
      by_cases hr : 0 ≤ temp ∧ temp ≤ 2
      · simp [hr]
      · simp [hr]
  have h08 : parseFloat "0.8".data = some (4 / 5) := by
    simp [parseFloat, digitsVal, isWS]
    norm_num
  have h5 : parseFloat "5".data = some 5 := by
    simp [parseFloat, digitsVal, isWS]
  have h3e : parseFloat "3e-1".data = some (3 / 10) := by
    simp [parseFloat, digitsVal, isWS]
    norm_num
  have h1e : parseFloat "1e1".data = some 10 := by
    simp [parseFloat, digitsVal, isWS]
  refine ⟨?_, ?_, ?_, h08, ?_, h5, ?_, h3e, ?_, h1e, ?_⟩
  · intro a rest t ha hp h0 h2'
    rw [key a rest ha, hp]
    simp [h0, h2']
  · intro a rest ha hp
    rw [key a rest ha, hp]
  · intro a rest t ha hp hr
    rw [key a rest ha, hp]
    simp [hr]
  · rw [key "0.8".data [] (by decide), h08]
    norm_num
  · rw [key "5".data [] (by decide), h5]
    norm_num
  · rw [key "3e-1".data [] (by decide), h3e]
    norm_num
  · rw [key "1e1".data [] (by decide), h1e]
    norm_num

/-- A session with a two-turn conversation, the concrete input of the C7
witness. -/
def retrySession : Session :=
  { sessionDefault with conversation := [⟨.user, "q"⟩, ⟨.assistant, "a"⟩] }

/-- Witness for C7: the in-range token "1" sets the temperature to 1. -/
theorem c7_retry_temperature_witness :
    (handleRetry retrySession ["1".data] [] (GenOutcome.error "")).session.temperature
      = 1 :=
  (c7_retry_temperature retrySession [] (GenOutcome.error "") (by decide)).1
    "1".data [] 1 (by decide) (by simp [parseFloat, digitsVal, isWS]) zero_le_one one_le_two

/-! ## Registration resolution (src/clientSession.ts lines 638–667) -/

/-- The conflict message (src/clientSession.ts line 644). -/
def takenMsg : String := "Username or email is already taken."

/-- The success message (src/clientSession.ts lines 657–661); the inserted
allowance is always 0.3, rendered by toFixed(4) as 0.3000. -/
def registeredMsg (username : String) : String :=
  "Registered successfully. Welcome, " ++ username ++ "! You have $0.3000 credits."

/-- The register branch of handleInteractiveAuth (src/clientSession.ts
lines 638–667): look for an account with the same username or email; on a
hit report the taken message and change nothing; otherwise hash the
password, insert a row with a 0.3 credit allowance, and adopt the new
identity into the session.  The hash function and the fresh row id are
passed in for the bcrypt and uuid collaborators. -/
def registerResolve (db : List Account) (s : Session)
    (username email password newId : String) (hash : String → String) :
    List Account × Session × List String :=
  match db.find? (fun a => a.username == username || a.email == email) with
  | some _ => (db, s, [takenMsg])
  | none =>
    let password_hash := hash password
    let row : Account :=
      { id := newId, username := username, email := email,
        credits := 3 / 10, password_hash := password_hash }
    (db ++ [row],
     { s with userId := some newId, username := some username, credits := 3 / 10 },
     [registeredMsg username])

/-- Claim C8: a registration against a database already holding an account
with the same username or email reports the taken message, inserts no row,
and leaves the session identity untouched; against a conflict-free database
it inserts exactly one row holding the hashed password and the 0.3
allowance and adopts the new identity. -/
theorem c8_register (db : List Account) (s : Session)
    (username email password newId : String) (hash : String → String) :
    ((∃ a ∈ db, (a.username == username || a.email == email) = true) →
        registerResolve db s username email password newId hash
          = (db, s, [takenMsg])) ∧
    (db.find? (fun a => a.username == username || a.email == email) = none →
        registerResolve db s username email password newId hash
          = (db ++ [{ id := newId, username := username, email := email,
                      credits := 3 / 10, password_hash := hash password }],
             { s with userId := some newId, username := some username,
                      credits := 3 / 10 },
             [registeredMsg username]) ∧
        (registerResolve db s username email password newId hash).1.length
          = db.length + 1) := by
  constructor
  · intro hex
    have hsome : (db.find? (fun a => a.username == username || a.email == email)).isSome := by
      rw [List.find?_isSome]
      simpa using hex
    obtain ⟨a, ha⟩ := Option.isSome_iff_exists.mp hsome
    unfold registerResolve
    rw [ha]
  · intro hnone
    unfold registerResolve
    rw [hnone]
    exact ⟨rfl, by simp⟩

/-- A pre-existing account row, the concrete conflicting database of the C8
witness. -/
def aliceRow : Account :=
  { id := "id0", username := "alice", email := "alice@example.com",
    credits := 1, password_hash := "h0" }

/-- Witness for C8: registering the already-present username alice changes
nothing, and registering against the empty database inserts one row. -/
theorem c8_register_witness :
    registerResolve [aliceRow] sessionDefault "alice" "b@example.com" "pw" "id1" id
      = ([aliceRow], sessionDefault, [takenMsg]) ∧
    (registerResolve [] sessionDefault "bob" "b@example.com" "pw" "id1" id).1.length
      = 0 + 1 :=
  ⟨(c8_register [aliceRow] sessionDefault "alice" "b@example.com" "pw" "id1" id).1
      ⟨aliceRow, List.mem_cons_self _ _, rfl⟩,
   ((c8_register [] sessionDefault "bob" "b@example.com" "pw" "id1" id).2 rfl).2⟩

/-! ## Adventure stream buffering (src/adventureMode.ts lines 130–159) -/

/-- The state threaded through the delta loop of handleAdventureMessage:
the unflushed buffer, the fenced-code-block flag, the first-chunk flag, the
flushed lines, and the accumulated full response
(src/adventureMode.ts lines 119–125). -/
structure StreamBufState where
  buffer : List Char
  inCodeBlock : Bool
  isFirstChunk : Bool
  flushed : List (List Char)
  fullResponse : List Char
deriving DecidableEq, Repr

/-- Whether a character list contains the triple-backtick marker, the
buffer.includes test of src/adventureMode.ts line 137. -/
def hasTriple : List Char → Bool
  | c1 :: c2 :: c3 :: rest =>
    (c1 == '\x60' && c2 == '\x60' && c3 == '\x60') || hasTriple (c2 :: c3 :: rest)
  | _ => false

/-- The number of non-overlapping triple-backtick markers in a character
list — the claim's count of markers seen. -/
def countTriple : List Char → Nat
  | c1 :: c2 :: c3 :: rest =>
    if c1 == '\x60' && c2 == '\x60' && c3 == '\x60' then countTriple rest + 1
    else countTriple (c2 :: c3 :: rest)
  | _ => 0

/-- One iteration of the delta loop (src/adventureMode.ts lines 130–158):
append the delta to the buffer; toggle inCodeBlock whenever the buffer
contains a triple-backtick marker; when the buffer holds a newline and the
flag is off, split on newlines, flush all complete lines and keep the
remainder buffered. -/
def processChunk (st : StreamBufState) (content : List Char) : StreamBufState :=
  if content.isEmpty then
    { st with fullResponse := st.fullResponse ++ content }
  else
    let buffer := st.buffer ++ content
    let inCode := if hasTriple buffer then !st.inCodeBlock else st.inCodeBlock
    if buffer.contains '\n' && !inCode then
      let lines := splitChar '\n' buffer
      let newBuffer := (lines.getLast?).getD []
      let flushLines := lines.dropLast
      { buffer := newBuffer, inCodeBlock := inCode,
        isFirstChunk := st.isFirstChunk && flushLines.isEmpty,
        flushed := st.flushed ++ flushLines,
        fullResponse := st.fullResponse ++ content }
    else
      { st with buffer := buffer, inCodeBlock := inCode,
                fullResponse := st.fullResponse ++ content }

/-- The loop state before the first delta (src/adventureMode.ts
lines 119–125). -/
def initStreamBuf : StreamBufState :=
  { buffer := [], inCodeBlock := false, isFirstChunk := true,
    flushed := [], fullResponse := [] }

/-- The whole delta loop over a sequence of text deltas. -/
def processChunks (deltas : List (List Char)) : StreamBufState :=
  deltas.foldl processChunk initStreamBuf

/-- The triple-backtick fence marker as a delta. -/
def fenceDelta : List Char := ['\x60', '\x60', '\x60']

/-- Claim C9, evaluated at the failing input: after the delta sequence
[three backticks, "x"] exactly one marker (an odd number) has been seen, so
the claim requires the engine to be inside a code block, but inCodeBlock is
false — the marker kept in the unflushed buffer re-toggles the flag on the
second delta (src/adventureMode.ts lines 137–139 test the accumulated
buffer, not the newly seen text). -/
theorem c9_fence_toggle_bug :
    (processChunks [fenceDelta, ['x']]).inCodeBlock = false ∧
    countTriple (fenceDelta ++ ['x']) % 2 = 1 := by decide

/-! ## Claim C10: command-line lowercasing -/

/-- The ASCII lowercasing of the dispatch line never yields an ASCII
uppercase character. -/
theorem isUpperCp_lowerChar (c : Char) : isUpperCp (lowerChar c) = false := by
  unfold lowerChar
  split
  · next h =>
    show (decide (65 ≤ c.toNat + 32) && decide (c.toNat + 32 ≤ 90)) = false
    simp only [Bool.and_eq_false_iff, decide_eq_false_iff_not, not_le]
    omega
  · next h =>
    show (decide (65 ≤ c.toNat) && decide (c.toNat ≤ 90)) = false
    simp only [Bool.and_eq_false_iff, decide_eq_false_iff_not, not_le]
    omega

/-- Every character of every field produced by splitChar occurs in the
split list. -/
theorem mem_splitChar (sep : Char) :
    ∀ (cs tok : List Char) (c : Char), tok ∈ splitChar sep cs → c ∈ tok → c ∈ cs := by
  intro cs
  induction cs with
  | nil =>
    intro tok c htok hc
    simp only [splitChar, List.mem_singleton] at htok
    subst htok
    simp at hc
  | cons d rest ih =>
    intro tok c htok hc
    simp only [splitChar] at htok
    by_cases hd : (d == sep) = true
    · rw [if_pos hd] at htok
      rcases List.mem_cons.mp htok with h1 | h2
      · subst h1; simp at hc
      · exact List.mem_cons_of_mem _ (ih tok c h2 hc)
    · rw [if_neg hd] at htok
      cases hr : splitChar sep rest with
      | nil =>
        rw [hr] at htok
        simp only [List.mem_singleton] at htok
        subst htok
        simp only [List.mem_singleton] at hc
        subst hc
        exact List.mem_cons_self _ _
      | cons l ls =>
        rw [hr] at htok
        rcases List.mem_cons.mp htok with h1 | h2
        · subst h1
          rcases List.mem_cons.mp hc with hcd | hcl
          · subst hcd; exact List.mem_cons_self _ _
          · exact List.mem_cons_of_mem _
              (ih l c (by rw [hr]; exact List.mem_cons_self _ _) hcl)
        · exact List.mem_cons_of_mem _
            (ih tok c (by rw [hr]; exact List.mem_cons_of_mem _ h2) hc)

/-- Every character of a space-join is a space or a character of one of
the joined fields. -/
theorem mem_joinSpace :
    ∀ (ts : List (List Char)) (c : Char), c ∈ joinSpace ts →
      c = ' ' ∨ ∃ t ∈ ts, c ∈ t := by
  intro ts
  induction ts with
  | nil => intro c hc; simp [joinSpace] at hc
  | cons t ts ih =>
    intro c hc
    cases ts with
    | nil =>
      right
      exact ⟨t, List.mem_cons_self _ _, by simpa [joinSpace] using hc⟩
    | cons u us =>
      simp only [joinSpace, List.mem_append, List.mem_cons] at hc
      rcases hc with h1 | h2 | h3
      · exact Or.inr ⟨t, List.mem_cons_self _ _, h1⟩
      · exact Or.inl h2
      · rcases ih c h3 with hs | ⟨v, hv, hcv⟩
        · exact Or.inl hs
        · exact Or.inr ⟨v, List.mem_cons_of_mem _ hv, hcv⟩

/-- Claim C10: handleCommand lowercases the whole trimmed line before
splitting (src/clientSession.ts line 97), so no token of the parsed command
line carries an ASCII uppercase character; consequently an exact-name
lookup with a stored name containing an uppercase letter can never match a
token (the /char new and /char use names), and the space-join of the
argument tokens (the stored /system prompt and the /model id) is free of
uppercase characters as well. -/
theorem c10_lowercased_dispatch :
    (∀ (cmd : String) (tok : List Char) (c : Char),
        tok ∈ parseCommand cmd → c ∈ tok → isUpperCp c = false) ∧
    (∀ (cmd : String) (tok stored : List Char),
        tok ∈ parseCommand cmd → (∃ c ∈ stored, isUpperCp c = true) →
        tok ≠ stored) ∧
    (∀ (cmd : String) (c : Char),
        c ∈ joinSpace ((parseCommand cmd).drop 1) → isUpperCp c = false) := by
  have part1 : ∀ (cmd : String) (tok : List Char) (c : Char),
      tok ∈ parseCommand cmd → c ∈ tok → isUpperCp c = false := by
    intro cmd tok c htok hc
    have hmem : c ∈ (trimList cmd.data).map lowerChar :=
      mem_splitChar ' ' _ tok c htok hc
    obtain ⟨c0, _, hc0⟩ := List.mem_map.mp hmem
    rw [← hc0]
    exact isUpperCp_lowerChar c0
  refine ⟨part1, ?_, ?_⟩
  · intro cmd tok stored htok ⟨c, hcs, hcu⟩ heq
    subst heq
    rw [part1 cmd tok c htok hcs] at hcu
    exact Bool.false_ne_true hcu
  · intro cmd c hc
    rcases mem_joinSpace _ c hc with hs | ⟨t, ht, hct⟩
    · subst hs; rfl
    · exact part1 cmd t c (List.mem_of_mem_drop ht) hct

/-- Witness for C10: the token bob of the line "/char USE Bob" is
lowercased and cannot match the stored mixed-case name Bob. -/
theorem c10_lowercased_dispatch_witness :
    isUpperCp 'b' = false ∧ "bob".data ≠ "Bob".data :=
  ⟨c10_lowercased_dispatch.1 "/char USE Bob" "bob".data 'b' (by decide) (by decide),
   c10_lowercased_dispatch.2.1 "/char USE Bob" "bob".data "Bob".data (by decide)
     ⟨'B', by decide, by decide⟩⟩

end QSh
